import Mathlib

/-!
Verification of the multi-camera stream player (ip_camera_player.py and
demo/camera_security.py) against its natural-language specification.

Modelling conventions:
- a Python `str` is a `List Char` (a sequence of Unicode scalar values);
- a Python `bytes` is a `List Nat` with every element below 256;
- fallible Python code (code that catches exceptions) is modelled with
  `Option`;
- nondeterministic fresh identifiers (`uuid.uuid4()`) are passed in as
  explicit parameters.
-/

namespace IPCam

set_option maxRecDepth 4096

/-- Python strings, modelled as lists of Unicode scalar values. -/
abbrev Str := List Char

/-- Python byte strings, modelled as lists of naturals below 256. -/
abbrev Bytes := List Nat

/-! ## camera_security.py: PasswordEncryption -/

/-- The 32-byte XOR key produced by `PasswordEncryption._get_encryption_key`:
the SHA-256 digest of the constant `_APP_KEY = "IPCameraPlayer_SecureKey_v1.0"`.
The digest of that fixed string is precomputed here byte by byte. -/
def encryption_key : Bytes :=
  [0x2d, 0xa8, 0x7a, 0x4c, 0xf0, 0x6c, 0x54, 0x7e,
   0x0b, 0x63, 0xa6, 0x5b, 0xe3, 0xd7, 0x2e, 0xc7,
   0x8f, 0x9f, 0x45, 0x4d, 0x67, 0x35, 0x4e, 0xb0,
   0xa1, 0xc6, 0x43, 0xa9, 0x38, 0x8e, 0x15, 0x4f]

/-- The repeated key `(key * (len(data) // len(key) + 1))[:len(data)]` built
inside `PasswordEncryption._xor_encrypt_decrypt`. -/
def key_repeated (dataLen : Nat) (key : Bytes) : Bytes :=
  (List.flatten (List.replicate (dataLen / key.length + 1) key)).take dataLen

/-- `PasswordEncryption._xor_encrypt_decrypt`: XOR each data byte with the
repeated key (`zip` truncates to the shorter list). -/
def xor_encrypt_decrypt (data key : Bytes) : Bytes :=
  List.zipWith (fun a b => a ^^^ b) data (key_repeated data.length key)

/-- UTF-8 encoding of a single code point, as performed per character by
Python `str.encode('utf-8')`. -/
def utf8EncodeChar (n : Nat) : Bytes :=
  if n < 0x80 then [n]
  else if n < 0x800 then [0xC0 + n / 64, 0x80 + n % 64]
  else if n < 0x10000 then [0xE0 + n / 4096, 0x80 + n / 64 % 64, 0x80 + n % 64]
  else [0xF0 + n / 262144, 0x80 + n / 4096 % 64, 0x80 + n / 64 % 64, 0x80 + n % 64]

/-- Python `str.encode('utf-8')`. -/
def utf8Encode : Str → Bytes
  | [] => []
  | c :: rest => utf8EncodeChar c.toNat ++ utf8Encode rest

/-- One-byte-at-a-time strict UTF-8 decoding loop. The state is: `pending`,
the number of continuation bytes still expected; `cp`, the code point bits
accumulated so far; and `nlo`/`nhi`, the permitted range for the next
continuation byte (narrowed after lead bytes 0xE0, 0xED, 0xF0 and 0xF4 to
reject overlong forms, surrogates and values above U+10FFFF, exactly as the
strict decoder behind Python `bytes.decode('utf-8')` does). -/
def utf8DecodeLoop : Nat → Nat → Nat → Nat → Bytes → Option Str
  | 0, _, _, _, [] => some []
  | 0, _, _, _, b :: rest =>
    if b < 0x80 then (utf8DecodeLoop 0 0 0 0 rest).map (fun s => Char.ofNat b :: s)
    else if b < 0xC2 then none
    else if b < 0xE0 then utf8DecodeLoop 1 (b - 0xC0) 0x80 0xBF rest
    else if b < 0xF0 then
      utf8DecodeLoop 2 (b - 0xE0) (if b = 0xE0 then 0xA0 else 0x80)
        (if b = 0xED then 0x9F else 0xBF) rest
    else if b < 0xF5 then
      utf8DecodeLoop 3 (b - 0xF0) (if b = 0xF0 then 0x90 else 0x80)
        (if b = 0xF4 then 0x8F else 0xBF) rest
    else none
  | _ + 1, _, _, _, [] => none
  | pending + 1, cp, nlo, nhi, b :: rest =>
    if nlo ≤ b ∧ b ≤ nhi then
      if pending = 0 then
        (utf8DecodeLoop 0 0 0 0 rest).map (fun s => Char.ofNat (cp * 64 + (b - 0x80)) :: s)
      else utf8DecodeLoop pending (cp * 64 + (b - 0x80)) 0x80 0xBF rest
    else none

/-- Python `bytes.decode('utf-8')`: strict UTF-8 decoding, rejecting stray
continuation bytes, truncated sequences, overlong forms, surrogate code
points and values above U+10FFFF; failure (a `UnicodeDecodeError`) is
`none`. -/
def utf8Decode (l : Bytes) : Option Str :=
  utf8DecodeLoop 0 0 0 0 l

/-- The character for a 6-bit value in the standard base64 alphabet used by
`base64.b64encode`. -/
def b64Char (n : Nat) : Char :=
  if n < 26 then Char.ofNat (65 + n)
  else if n < 52 then Char.ofNat (97 + (n - 26))
  else if n < 62 then Char.ofNat (48 + (n - 52))
  else if n = 62 then '+'
  else '/'

/-- The 6-bit value of a standard base64 alphabet character ('=' and any
other character give `none`). -/
def b64CharIndex (c : Char) : Option Nat :=
  if 65 ≤ c.toNat ∧ c.toNat ≤ 90 then some (c.toNat - 65)
  else if 97 ≤ c.toNat ∧ c.toNat ≤ 122 then some (c.toNat - 97 + 26)
  else if 48 ≤ c.toNat ∧ c.toNat ≤ 57 then some (c.toNat - 48 + 52)
  else if c = '+' then some 62
  else if c = '/' then some 63
  else none

/-- Whether a character survives `base64.b64decode`'s pre-filter: member of
the standard alphabet, or the padding character. This is also exactly the
`valid_chars` set checked by `PasswordEncryption.is_encrypted`. -/
def isB64OrPad (c : Char) : Bool :=
  (b64CharIndex c).isSome || c = '='

/-- `base64.b64encode`: three bytes to four characters, '='-padded. -/
def b64encode : Bytes → Str
  | [] => []
  | [b1] => [b64Char (b1 / 4), b64Char (b1 % 4 * 16), '=', '=']
  | [b1, b2] => [b64Char (b1 / 4), b64Char (b1 % 4 * 16 + b2 / 16), b64Char (b2 % 16 * 4), '=']
  | b1 :: b2 :: b3 :: rest =>
    b64Char (b1 / 4) :: b64Char (b1 % 4 * 16 + b2 / 16) :: b64Char (b2 % 16 * 4 + b3 / 64)
      :: b64Char (b3 % 64) :: b64encode rest

/-- Quantum-by-quantum base64 decoding of an already filtered character list:
groups of four characters, with padding permitted only as the final one or
two characters. (CPython's forgiving decoder additionally accepts some
irregular padding placements; those inputs are rejected here.) -/
def b64decodeChars : Str → Option Bytes
  | [] => some []
  | c1 :: c2 :: c3 :: c4 :: rest =>
    if c3 = '=' ∧ c4 = '=' ∧ rest = [] then
      (b64CharIndex c1).bind fun n1 =>
        (b64CharIndex c2).map fun n2 => [n1 * 4 + n2 / 16]
    else if c4 = '=' ∧ rest = [] then
      (b64CharIndex c1).bind fun n1 =>
        (b64CharIndex c2).bind fun n2 =>
          (b64CharIndex c3).map fun n3 => [n1 * 4 + n2 / 16, n2 % 16 * 16 + n3 / 4]
    else
      (b64CharIndex c1).bind fun n1 =>
        (b64CharIndex c2).bind fun n2 =>
          (b64CharIndex c3).bind fun n3 =>
            (b64CharIndex c4).bind fun n4 =>
              (b64decodeChars rest).map fun tl =>
                (n1 * 4 + n2 / 16) :: (n2 % 16 * 16 + n3 / 4) :: (n3 % 4 * 64 + n4) :: tl
  | _ => none

/-- `base64.b64decode` (forgiving mode): discard characters outside the
alphabet-plus-padding set, then require well-formed four-character quanta;
failure (a `binascii.Error`) is `none`. -/
def b64decode (s : Str) : Option Bytes :=
  b64decodeChars (s.filter isB64OrPad)

/-- `PasswordEncryption.encrypt_password`: empty input gives the empty
string, otherwise UTF-8 encode, XOR with the key, base64 encode. On valid
Unicode input no step of the original can raise, so the `except` branch is
unreachable. -/
def encrypt_password (password : Str) : Str :=
  if password = [] then []
  else b64encode (xor_encrypt_decrypt (utf8Encode password) encryption_key)

/-- The fallible body of `PasswordEncryption.decrypt_password`: ASCII-encode
the token (fails on any non-ASCII character), base64 decode, XOR with the
key, UTF-8 decode. -/
def decrypt_password_steps (encrypted : Str) : Option Str :=
  if encrypted.all (fun c => c.toNat < 128) then
    (b64decode encrypted).bind fun bytes =>
      utf8Decode (xor_encrypt_decrypt bytes encryption_key)
  else none

/-- `PasswordEncryption.decrypt_password`: empty input gives the empty
string; any failure is caught and collapses to the empty string. -/
def decrypt_password (encrypted : Str) : Str :=
  if encrypted = [] then []
  else (decrypt_password_steps encrypted).getD []

/-- `PasswordEncryption.is_encrypted`: nonempty, ASCII-encodable,
base64-decodable, and drawn from the base64 character set. -/
def is_encrypted (password : Str) : Bool :=
  if password = [] then false
  else
    (password.all fun c => c.toNat < 128) &&
    (b64decode password).isSome &&
    (password.all isB64OrPad)

/-! ## Helper lemmas: the XOR layer -/

theorem char_toNat_valid (c : Char) :
    c.toNat < 0xD800 ∨ (0xDFFF < c.toNat ∧ c.toNat < 0x110000) := by
  rcases c.valid with h | ⟨h1, h2⟩
  · exact Or.inl (UInt32.toNat_lt_of_lt (by decide) h)
  · exact Or.inr ⟨UInt32.lt_toNat_of_lt (by decide) h1, UInt32.toNat_lt_of_lt (by decide) h2⟩

theorem zipWith_xor_cancel :
    ∀ (d s : Bytes), List.zipWith Nat.xor (List.zipWith Nat.xor d s) s = List.take s.length d
  | [], _ => by simp
  | _ :: _, [] => by simp
  | a :: d, b :: s => by
    simp only [List.zipWith_cons_cons, List.length_cons, List.take_succ_cons,
      zipWith_xor_cancel d s, List.cons.injEq, and_true]
    exact Nat.xor_cancel_right b a

theorem flatten_replicate_length (n : Nat) (l : Bytes) :
    (List.flatten (List.replicate n l)).length = n * l.length := by
  induction n with
  | zero => simp
  | succ k ih => simp [List.replicate_succ, ih, Nat.succ_mul, Nat.add_comm]

theorem key_repeated_length (dataLen : Nat) (key : Bytes) (h : 0 < key.length) :
    (key_repeated dataLen key).length = dataLen := by
  unfold key_repeated
  rw [List.length_take, flatten_replicate_length, Nat.succ_mul]
  have hdm : dataLen / key.length * key.length + dataLen % key.length = dataLen :=
    Nat.div_add_mod' dataLen key.length
  have hlt := Nat.mod_lt dataLen h
  generalize dataLen / key.length * key.length = p at hdm ⊢
  omega

theorem key_repeated_mem (dataLen : Nat) (key : Bytes) :
    ∀ b ∈ key_repeated dataLen key, b ∈ key := by
  intro b hb
  have hb2 := List.take_subset _ _ hb
  rcases List.mem_flatten.mp hb2 with ⟨l, hl, hbl⟩
  rwa [List.eq_of_mem_replicate hl] at hbl

theorem xor_encrypt_decrypt_length (data key : Bytes) (h : 0 < key.length) :
    (xor_encrypt_decrypt data key).length = data.length := by
  unfold xor_encrypt_decrypt
  rw [List.length_zipWith, key_repeated_length _ _ h, Nat.min_self]

theorem encryption_key_length : encryption_key.length = 32 := by decide

theorem xor_encrypt_decrypt_involutive (data : Bytes) :
    xor_encrypt_decrypt (xor_encrypt_decrypt data encryption_key) encryption_key = data := by
  have hk : 0 < encryption_key.length := by rw [encryption_key_length]; omega
  have hlen : (xor_encrypt_decrypt data encryption_key).length = data.length :=
    xor_encrypt_decrypt_length data encryption_key hk
  show List.zipWith _ _ (key_repeated (xor_encrypt_decrypt data encryption_key).length _) = _
  rw [hlen]
  have hx : ∀ a b : Nat, (fun a b => a ^^^ b) a b = Nat.xor a b := fun _ _ => rfl
  unfold xor_encrypt_decrypt
  rw [show (fun (a b : Nat) => a ^^^ b) = Nat.xor from rfl]
  rw [zipWith_xor_cancel data (key_repeated data.length encryption_key),
    key_repeated_length _ _ hk, List.take_length]

theorem zipWith_xor_lt_256 :
    ∀ (d s : Bytes), (∀ b ∈ d, b < 256) → (∀ b ∈ s, b < 256) →
      ∀ b ∈ List.zipWith Nat.xor d s, b < 256
  | [], _, _, _ => by simp
  | _ :: _, [], _, _ => by simp
  | a :: d, c :: s, hd, hs => by
    intro b hb
    rcases List.mem_cons.mp hb with h | h
    · subst h
      have ha : a < 2 ^ 8 := hd a (List.mem_cons_self a d)
      have hc : c < 2 ^ 8 := hs c (List.mem_cons_self c s)
      exact Nat.xor_lt_two_pow ha hc
    · exact zipWith_xor_lt_256 d s (fun x hx => hd x (List.mem_cons_of_mem _ hx))
        (fun x hx => hs x (List.mem_cons_of_mem _ hx)) b h

theorem encryption_key_bytes_lt : ∀ b ∈ encryption_key, b < 256 := by decide

theorem xor_encrypt_decrypt_bytes_lt (data : Bytes) (hd : ∀ b ∈ data, b < 256) :
    ∀ b ∈ xor_encrypt_decrypt data encryption_key, b < 256 := by
  refine zipWith_xor_lt_256 _ _ hd ?_
  intro b hb
  exact encryption_key_bytes_lt b (key_repeated_mem _ _ b hb)

/-! ## Helper lemmas: the UTF-8 layer -/

theorem utf8Decode_encodeChar (c : Char) (rest : Bytes) :
    utf8Decode (utf8EncodeChar c.toNat ++ rest) = (utf8Decode rest).map (fun s => c :: s) := by
  have hval := char_toNat_valid c
  have hofn : Char.ofNat c.toNat = c := Char.ofNat_toNat c
  generalize hn : c.toNat = n at hval hofn
  unfold utf8Decode
  by_cases h1 : n < 0x80
  · have he : utf8EncodeChar n = [n] := by unfold utf8EncodeChar; rw [if_pos h1]
    rw [he, List.singleton_append, utf8DecodeLoop, if_pos h1, hofn]
  · by_cases h2 : n < 0x800
    · have he : utf8EncodeChar n = [0xC0 + n / 64, 0x80 + n % 64] := by
        unfold utf8EncodeChar; rw [if_neg h1, if_pos h2]
      rw [he, List.cons_append, List.singleton_append, utf8DecodeLoop,
        if_neg (show ¬(0xC0 + n / 64 < 0x80) by omega),
        if_neg (show ¬(0xC0 + n / 64 < 0xC2) by omega),
        if_pos (show 0xC0 + n / 64 < 0xE0 by omega), utf8DecodeLoop,
        if_pos (show 0x80 ≤ 0x80 + n % 64 ∧ 0x80 + n % 64 ≤ 0xBF by omega), if_pos rfl,
        show (0xC0 + n / 64 - 0xC0) * 64 + (0x80 + n % 64 - 0x80) = n by omega, hofn]
    · by_cases h3 : n < 0x10000
      · have he : utf8EncodeChar n = [0xE0 + n / 4096, 0x80 + n / 64 % 64, 0x80 + n % 64] := by
          unfold utf8EncodeChar; rw [if_neg h1, if_neg h2, if_pos h3]
        have hc1 : (if 0xE0 + n / 4096 = 0xE0 then 0xA0 else 0x80) ≤ 0x80 + n / 64 % 64
            ∧ 0x80 + n / 64 % 64 ≤ (if 0xE0 + n / 4096 = 0xED then 0x9F else 0xBF) := by
          constructor <;> split <;> omega
        rw [he, List.cons_append, List.cons_append, List.singleton_append, utf8DecodeLoop,
          if_neg (show ¬(0xE0 + n / 4096 < 0x80) by omega),
          if_neg (show ¬(0xE0 + n / 4096 < 0xC2) by omega),
          if_neg (show ¬(0xE0 + n / 4096 < 0xE0) by omega),
          if_pos (show 0xE0 + n / 4096 < 0xF0 by omega), utf8DecodeLoop, if_pos hc1,
          if_neg (by omega : ¬(1 = 0)), utf8DecodeLoop,
          if_pos (show 0x80 ≤ 0x80 + n % 64 ∧ 0x80 + n % 64 ≤ 0xBF by omega), if_pos rfl,
          show ((0xE0 + n / 4096 - 0xE0) * 64 + (0x80 + n / 64 % 64 - 0x80)) * 64
            + (0x80 + n % 64 - 0x80) = n by omega, hofn]
      · have he : utf8EncodeChar n
            = [0xF0 + n / 262144, 0x80 + n / 4096 % 64, 0x80 + n / 64 % 64, 0x80 + n % 64] := by
          unfold utf8EncodeChar; rw [if_neg h1, if_neg h2, if_neg h3]
        have hc1 : (if 0xF0 + n / 262144 = 0xF0 then 0x90 else 0x80) ≤ 0x80 + n / 4096 % 64
            ∧ 0x80 + n / 4096 % 64 ≤ (if 0xF0 + n / 262144 = 0xF4 then 0x8F else 0xBF) := by
          constructor <;> split <;> omega
        rw [he, List.cons_append, List.cons_append, List.cons_append, List.singleton_append,
          utf8DecodeLoop,
          if_neg (show ¬(0xF0 + n / 262144 < 0x80) by omega),
          if_neg (show ¬(0xF0 + n / 262144 < 0xC2) by omega),
          if_neg (show ¬(0xF0 + n / 262144 < 0xE0) by omega),
          if_neg (show ¬(0xF0 + n / 262144 < 0xF0) by omega),
          if_pos (show 0xF0 + n / 262144 < 0xF5 by omega), utf8DecodeLoop, if_pos hc1,
          if_neg (by omega : ¬(2 = 0)), utf8DecodeLoop,
          if_pos (show 0x80 ≤ 0x80 + n / 64 % 64 ∧ 0x80 + n / 64 % 64 ≤ 0xBF by omega),
          if_neg (by omega : ¬(1 = 0)), utf8DecodeLoop,
          if_pos (show 0x80 ≤ 0x80 + n % 64 ∧ 0x80 + n % 64 ≤ 0xBF by omega), if_pos rfl,
          show (((0xF0 + n / 262144 - 0xF0) * 64 + (0x80 + n / 4096 % 64 - 0x80)) * 64
            + (0x80 + n / 64 % 64 - 0x80)) * 64 + (0x80 + n % 64 - 0x80) = n by omega, hofn]

theorem utf8_roundtrip (s : Str) : utf8Decode (utf8Encode s) = some s := by
  induction s with
  | nil => rfl
  | cons c rest ih =>
    rw [utf8Encode, utf8Decode_encodeChar, ih]
    rfl

theorem utf8EncodeChar_bytes_lt (n : Nat) (h : n < 0x110000) :
    ∀ b ∈ utf8EncodeChar n, b < 256 := by
  unfold utf8EncodeChar
  split
  · intro b hb; simp at hb; omega
  · split
    · intro b hb; simp at hb; rcases hb with h | h <;> omega
    · split
      · intro b hb; simp at hb; rcases hb with h | h | h <;> omega
      · intro b hb; simp at hb; rcases hb with h | h | h | h <;> omega

theorem utf8Encode_bytes_lt (s : Str) : ∀ b ∈ utf8Encode s, b < 256 := by
  induction s with
  | nil => simp [utf8Encode]
  | cons c rest ih =>
    intro b hb
    rw [utf8Encode] at hb
    rcases List.mem_append.mp hb with h | h
    · have hc := char_toNat_valid c
      exact utf8EncodeChar_bytes_lt c.toNat (by omega) b h
    · exact ih b h

theorem utf8Encode_ne_nil (c : Char) (s : Str) : utf8Encode (c :: s) ≠ [] := by
  rw [utf8Encode]
  unfold utf8EncodeChar
  split
  · simp
  · split
    · simp
    · split <;> simp

/-! ## Helper lemmas: the base64 layer -/

theorem b64CharIndex_b64Char : ∀ n, n < 64 → b64CharIndex (b64Char n) = some n := by decide

theorem b64Char_ne_pad : ∀ n, n < 64 → ¬(b64Char n = '=') := by decide

theorem isB64OrPad_b64Char : ∀ n, n < 64 → isB64OrPad (b64Char n) = true := by decide

theorem isB64OrPad_pad : isB64OrPad '=' = true := by decide

theorem isB64OrPad_ascii (c : Char) (h : isB64OrPad c = true) : c.toNat < 128 := by
  unfold isB64OrPad at h
  rw [Bool.or_eq_true] at h
  rcases h with h1 | h2
  · unfold b64CharIndex at h1
    split_ifs at h1 with hc1 hc2 hc3 hc4 hc5
    · omega
    · omega
    · omega
    · subst hc4; decide
    · subst hc5; decide
    · simp at h1
  · have : c = '=' := by simpa using h2
    subst this; decide

theorem b64encode_all_valid :
    ∀ (bs : Bytes), (∀ b ∈ bs, b < 256) → ∀ c ∈ b64encode bs, isB64OrPad c = true
  | [], _ => by simp [b64encode]
  | [b1], h => by
    have hb1 : b1 < 256 := h b1 (by simp)
    intro c hc
    rw [b64encode] at hc
    simp only [List.mem_cons, List.not_mem_nil, or_false] at hc
    rcases hc with rfl | rfl | rfl | rfl
    · exact isB64OrPad_b64Char _ (by omega)
    · exact isB64OrPad_b64Char _ (by omega)
    · exact isB64OrPad_pad
    · exact isB64OrPad_pad
  | [b1, b2], h => by
    have hb1 : b1 < 256 := h b1 (by simp)
    have hb2 : b2 < 256 := h b2 (by simp)
    intro c hc
    rw [b64encode] at hc
    simp only [List.mem_cons, List.not_mem_nil, or_false] at hc
    rcases hc with rfl | rfl | rfl | rfl
    · exact isB64OrPad_b64Char _ (by omega)
    · exact isB64OrPad_b64Char _ (by omega)
    · exact isB64OrPad_b64Char _ (by omega)
    · exact isB64OrPad_pad
  | b1 :: b2 :: b3 :: rest, h => by
    have hb1 : b1 < 256 := h b1 (by simp)
    have hb2 : b2 < 256 := h b2 (by simp)
    have hb3 : b3 < 256 := h b3 (by simp)
    intro c hc
    rw [b64encode] at hc
    simp only [List.mem_cons] at hc
    rcases hc with rfl | rfl | rfl | rfl | hc
    · exact isB64OrPad_b64Char _ (by omega)
    · exact isB64OrPad_b64Char _ (by omega)
    · exact isB64OrPad_b64Char _ (by omega)
    · exact isB64OrPad_b64Char _ (by omega)
    · exact b64encode_all_valid rest (fun x hx => h x (by simp [hx])) c hc

theorem b64encode_filter_id (bs : Bytes) (h : ∀ b ∈ bs, b < 256) :
    (b64encode bs).filter isB64OrPad = b64encode bs :=
  List.filter_eq_self.mpr (b64encode_all_valid bs h)

theorem b64decodeChars_encode :
    ∀ (bs : Bytes), (∀ b ∈ bs, b < 256) → b64decodeChars (b64encode bs) = some bs
  | [], _ => rfl
  | [b1], h => by
    have hb1 : b1 < 256 := h b1 (by simp)
    rw [b64encode, b64decodeChars, if_pos ⟨rfl, rfl, rfl⟩,
      b64CharIndex_b64Char _ (by omega : b1 / 4 < 64),
      b64CharIndex_b64Char _ (by omega : b1 % 4 * 16 < 64)]
    simp only [Option.some_bind, Option.map_some']
    rw [show b1 / 4 * 4 + b1 % 4 * 16 / 16 = b1 by omega]
  | [b1, b2], h => by
    have hb1 : b1 < 256 := h b1 (by simp)
    have hb2 : b2 < 256 := h b2 (by simp)
    have hne : ¬(b64Char (b2 % 16 * 4) = '=' ∧ ('=' : Char) = '=' ∧ ([] : Str) = []) := by
      intro hcon
      exact b64Char_ne_pad _ (by omega) hcon.1
    rw [b64encode, b64decodeChars, if_neg hne, if_pos ⟨rfl, rfl⟩,
      b64CharIndex_b64Char _ (by omega : b1 / 4 < 64),
      b64CharIndex_b64Char _ (by omega : b1 % 4 * 16 + b2 / 16 < 64),
      b64CharIndex_b64Char _ (by omega : b2 % 16 * 4 < 64)]
    simp only [Option.some_bind, Option.map_some']
    rw [show b1 / 4 * 4 + (b1 % 4 * 16 + b2 / 16) / 16 = b1 by omega,
      show (b1 % 4 * 16 + b2 / 16) % 16 * 16 + b2 % 16 * 4 / 4 = b2 by omega]
  | b1 :: b2 :: b3 :: rest, h => by
    have hb1 : b1 < 256 := h b1 (by simp)
    have hb2 : b2 < 256 := h b2 (by simp)
    have hb3 : b3 < 256 := h b3 (by simp)
    have ih := b64decodeChars_encode rest (fun x hx => h x (by simp [hx]))
    rcases rest with _ | ⟨b4, rest2⟩
    · rw [b64encode, b64encode, b64decodeChars,
        if_neg (fun hcon => b64Char_ne_pad _ (by omega : b2 % 16 * 4 + b3 / 64 < 64) hcon.1),
        if_neg (fun hcon => b64Char_ne_pad _ (by omega : b3 % 64 < 64) hcon.1),
        b64CharIndex_b64Char _ (by omega : b1 / 4 < 64),
        b64CharIndex_b64Char _ (by omega : b1 % 4 * 16 + b2 / 16 < 64),
        b64CharIndex_b64Char _ (by omega : b2 % 16 * 4 + b3 / 64 < 64),
        b64CharIndex_b64Char _ (by omega : b3 % 64 < 64)]
      simp only [Option.some_bind, Option.map_some', b64decodeChars]
      rw [show b1 / 4 * 4 + (b1 % 4 * 16 + b2 / 16) / 16 = b1 by omega,
        show (b1 % 4 * 16 + b2 / 16) % 16 * 16 + (b2 % 16 * 4 + b3 / 64) / 4 = b2 by omega,
        show (b2 % 16 * 4 + b3 / 64) % 4 * 64 + b3 % 64 = b3 by omega]
    · have hne : b64encode (b4 :: rest2) ≠ [] := by
        rcases rest2 with _ | ⟨b5, rest3⟩
        · rw [b64encode]; simp
        · rcases rest3 with _ | ⟨b6, rest4⟩
          · rw [b64encode]; simp
          · rw [b64encode]; simp
      rw [b64encode, b64decodeChars,
        if_neg (fun hcon => b64Char_ne_pad _ (by omega : b2 % 16 * 4 + b3 / 64 < 64) hcon.1),
        if_neg (fun hcon => hne hcon.2),
        b64CharIndex_b64Char _ (by omega : b1 / 4 < 64),
        b64CharIndex_b64Char _ (by omega : b1 % 4 * 16 + b2 / 16 < 64),
        b64CharIndex_b64Char _ (by omega : b2 % 16 * 4 + b3 / 64 < 64),
        b64CharIndex_b64Char _ (by omega : b3 % 64 < 64), ih]
      simp only [Option.some_bind, Option.map_some']
      rw [show b1 / 4 * 4 + (b1 % 4 * 16 + b2 / 16) / 16 = b1 by omega,
        show (b1 % 4 * 16 + b2 / 16) % 16 * 16 + (b2 % 16 * 4 + b3 / 64) / 4 = b2 by omega,
        show (b2 % 16 * 4 + b3 / 64) % 4 * 64 + b3 % 64 = b3 by omega]

theorem b64_roundtrip (bs : Bytes) (h : ∀ b ∈ bs, b < 256) :
    b64decode (b64encode bs) = some bs := by
  unfold b64decode
  rw [b64encode_filter_id bs h, b64decodeChars_encode bs h]

theorem b64encode_ne_nil (b : Nat) (rest : Bytes) : b64encode (b :: rest) ≠ [] := by
  rcases rest with _ | ⟨b2, rest2⟩
  · rw [b64encode]; simp
  · rcases rest2 with _ | ⟨b3, rest3⟩
    · rw [b64encode]; simp
    · rw [b64encode]; simp

/-! ## Helper lemmas: the password codec as a whole -/

theorem encrypt_password_ne_nil (c : Char) (s : Str) : encrypt_password (c :: s) ≠ [] := by
  unfold encrypt_password
  rw [if_neg (List.cons_ne_nil c s)]
  have hk : 0 < encryption_key.length := by rw [encryption_key_length]; omega
  have hlen : (xor_encrypt_decrypt (utf8Encode (c :: s)) encryption_key).length
      = (utf8Encode (c :: s)).length := xor_encrypt_decrypt_length _ _ hk
  have hpos : 0 < (utf8Encode (c :: s)).length :=
    List.length_pos.mpr (utf8Encode_ne_nil c s)
  rcases hx : xor_encrypt_decrypt (utf8Encode (c :: s)) encryption_key with _ | ⟨b, rest⟩
  · rw [hx] at hlen; simp at hlen; omega
  · exact b64encode_ne_nil b rest

theorem encrypted_bytes_lt (p : Str) :
    ∀ b ∈ xor_encrypt_decrypt (utf8Encode p) encryption_key, b < 256 :=
  xor_encrypt_decrypt_bytes_lt _ (utf8Encode_bytes_lt p)

theorem encrypt_password_all_ascii (c : Char) (s : Str) :
    ((encrypt_password (c :: s)).all fun ch => ch.toNat < 128) = true := by
  rw [List.all_eq_true]
  intro ch hch
  rw [decide_eq_true_eq]
  apply isB64OrPad_ascii
  unfold encrypt_password at hch
  rw [if_neg (List.cons_ne_nil c s)] at hch
  exact b64encode_all_valid _ (encrypted_bytes_lt (c :: s)) ch hch

theorem encrypt_decrypt_roundtrip (p : Str) : decrypt_password (encrypt_password p) = p := by
  rcases p with _ | ⟨c, s⟩
  · rfl
  · unfold decrypt_password
    rw [if_neg (encrypt_password_ne_nil c s)]
    unfold decrypt_password_steps
    rw [if_pos (encrypt_password_all_ascii c s)]
    show ((b64decode (encrypt_password (c :: s))).bind fun bytes =>
      utf8Decode (xor_encrypt_decrypt bytes encryption_key)).getD [] = c :: s
    unfold encrypt_password
    rw [if_neg (List.cons_ne_nil c s), b64_roundtrip _ (encrypted_bytes_lt (c :: s)),
      Option.some_bind, xor_encrypt_decrypt_involutive, utf8_roundtrip]
    rfl

theorem is_encrypted_encrypt (c : Char) (s : Str) :
    is_encrypted (encrypt_password (c :: s)) = true := by
  unfold is_encrypted
  rw [if_neg (encrypt_password_ne_nil c s)]
  rw [Bool.and_eq_true, Bool.and_eq_true]
  refine ⟨⟨encrypt_password_all_ascii c s, ?_⟩, ?_⟩
  · show (b64decode (encrypt_password (c :: s))).isSome = true
    unfold encrypt_password
    rw [if_neg (List.cons_ne_nil c s), b64_roundtrip _ (encrypted_bytes_lt (c :: s))]
    rfl
  · rw [List.all_eq_true]
    intro ch hch
    unfold encrypt_password at hch
    rw [if_neg (List.cons_ne_nil c s)] at hch
    exact b64encode_all_valid _ (encrypted_bytes_lt (c :: s)) ch hch

/-! ## Claim C1 -/

/-- C1: for every string p (including the empty string and multi-byte text),
`decrypt_password (encrypt_password p) = p`; moreover `encrypt_password`
and `decrypt_password` map the empty string to the empty string, and any
token on which the decoding pipeline fails (empty or undecodable) yields
the empty string, with no exception escaping (all functions are total). -/
theorem credential_codec_roundtrip :
    (∀ p : Str, decrypt_password (encrypt_password p) = p) ∧
    encrypt_password [] = [] ∧ decrypt_password [] = [] ∧
    (∀ t : Str, decrypt_password_steps t = none → decrypt_password t = []) := by
  refine ⟨encrypt_decrypt_roundtrip, rfl, rfl, ?_⟩
  intro t h
  unfold decrypt_password
  split
  · rfl
  · rw [h]; rfl

/-- Witness for C1 at concrete inputs: a multi-byte password (with 2-, 3-
and 4-byte UTF-8 characters) round-trips, and the undecodable token "x"
decodes to the empty string. -/
theorem credential_codec_roundtrip_witness :
    decrypt_password (encrypt_password "pässwörd€😀".toList) = "pässwörd€😀".toList ∧
    decrypt_password "x".toList = [] :=
  ⟨credential_codec_roundtrip.1 _, credential_codec_roundtrip.2.2.2 "x".toList (by decide)⟩

/-! ## ip_camera_player.py: CameraState, CameraInstance -/

/-- The module constant `CAMERA_OPENING_TIMEOUT_SECONDS = 20`. -/
def CAMERA_OPENING_TIMEOUT_SECONDS : Int := 20

/-- The `CameraState` enumeration. -/
inductive CameraState
  | stopped
  | starting
  | running
  | paused
  | error
deriving DecidableEq

/-- The `.value` string of a `CameraState` member. -/
def CameraState.value : CameraState → Str
  | .stopped => "stopped".toList
  | .starting => "starting".toList
  | .running => "running".toList
  | .paused => "paused".toList
  | .error => "error".toList

/-- The `CameraState(value)` constructor call: `none` models the `ValueError`
raised on an unknown value. -/
def CameraState.ofValue (s : Str) : Option CameraState :=
  if s = "stopped".toList then some .stopped
  else if s = "starting".toList then some .starting
  else if s = "running".toList then some .running
  else if s = "paused".toList then some .paused
  else if s = "error".toList then some .error
  else none

/-- The `StreamThread` object owned by a camera, abstracted to the one bit
the record-level logic reads: whether `isRunning()` is true. -/
structure StreamHandle where
  running : Bool
deriving DecidableEq

/-- The fields of a `CameraInstance`. -/
structure CameraInstance where
  id : Str
  name : Str
  protocol : Str
  username : Str
  password : Str
  ip_address : Str
  port : Int
  stream_path : Str
  resolution : Int × Int
  connection_timeout : Int
  location : Str
  state : CameraState
  error_message : Str
  stream_thread : Option StreamHandle
deriving DecidableEq

/-- `CameraInstance.__init__`. `genId` is the `str(uuid.uuid4())` drawn when
no (or a falsy) `camera_id` is supplied. After the configuration fields, the
constructor always sets `state = STOPPED`, `error_message = ""` and
`stream_thread = None`. -/
def camera_init (genId : Str) (camera_id : Option Str) (name protocol username password
    ip_address : Str) (port : Int) (stream_path : Str) (resolution : Int × Int)
    (connection_timeout : Int) (location : Str) : CameraInstance :=
  { id := match camera_id with
      | some cid => if cid = [] then genId else cid
      | none => genId
    name := name
    protocol := protocol
    username := username
    password := password
    ip_address := ip_address
    port := port
    stream_path := stream_path
    resolution := resolution
    connection_timeout := connection_timeout
    location := if location = [] then "Default".toList else location
    state := CameraState.stopped
    error_message := []
    stream_thread := none }

/-- The persisted dictionary form of a camera (the keys written by
`CameraInstance.to_dict`). `connection_timeout` is optional because the
dictionary built by `migrate_settings` omits that key; `from_dict` supplies
the default. -/
structure CameraDict where
  id : Str
  name : Str
  protocol : Str
  username : Str
  password : Str
  ip_address : Str
  port : Int
  stream_path : Str
  resolution : Int × Int
  connection_timeout : Option Int
  location : Str
  state_value : Str
  error_message : Str
deriving DecidableEq

/-- `CameraInstance.to_dict`: all configuration, with the password encoded
by `encrypt_password` before storage. -/
def to_dict (c : CameraInstance) : CameraDict :=
  { id := c.id
    name := c.name
    protocol := c.protocol
    username := c.username
    password := encrypt_password c.password
    ip_address := c.ip_address
    port := c.port
    stream_path := c.stream_path
    resolution := c.resolution
    connection_timeout := some c.connection_timeout
    location := c.location
    state_value := c.state.value
    error_message := c.error_message }

/-- `CameraInstance.from_dict`: the stored password is decoded only when the
`is_encrypted` heuristic accepts it, otherwise used verbatim; then the
camera is rebuilt and its state and error message restored. `none` models
the exception a bad `state` value raises. -/
def from_dict (genId : Str) (data : CameraDict) : Option CameraInstance :=
  let password_data := data.password
  let decrypted_password :=
    if password_data = [] then ([] : Str)
    else if is_encrypted password_data then decrypt_password password_data
    else password_data
  (CameraState.ofValue data.state_value).map fun st =>
    { camera_init genId (some data.id) data.name data.protocol data.username decrypted_password
        data.ip_address data.port data.stream_path data.resolution
        (data.connection_timeout.getD CAMERA_OPENING_TIMEOUT_SECONDS) data.location with
      state := st
      error_message := data.error_message }

/-- Decimal rendering of an integer, as a Python f-string renders `port`. -/
def intStr (n : Int) : Str := (toString n).toList

/-- `CameraInstance.get_url`: embeds `username:password@` only when both
truthy (non-empty). -/
def get_url (c : CameraInstance) : Str :=
  if c.username ≠ [] ∧ c.password ≠ [] then
    c.protocol ++ "://".toList ++ c.username ++ ":".toList ++ c.password ++ "@".toList
      ++ c.ip_address ++ ":".toList ++ intStr c.port ++ "/".toList ++ c.stream_path
  else
    c.protocol ++ "://".toList ++ c.ip_address ++ ":".toList ++ intStr c.port
      ++ "/".toList ++ c.stream_path

/-- `CameraInstance.get_safe_url`: the credential-free form. -/
def get_safe_url (c : CameraInstance) : Str :=
  c.protocol ++ "://".toList ++ c.ip_address ++ ":".toList ++ intStr c.port
    ++ "/".toList ++ c.stream_path

/-! ## Claim C2 -/

theorem ofValue_value (st : CameraState) : CameraState.ofValue st.value = some st := by
  cases st <;> rfl

theorem camera_init_password (genId : Str) (camera_id : Option Str) (name protocol username
    password ip_address : Str) (port : Int) (stream_path : Str) (resolution : Int × Int)
    (connection_timeout : Int) (location : Str) :
    (camera_init genId camera_id name protocol username password ip_address port stream_path
      resolution connection_timeout location).password = password := rfl

theorem from_dict_to_dict_password (genId : Str) (c : CameraInstance) :
    (from_dict genId (to_dict c)).map CameraInstance.password = some c.password := by
  unfold from_dict to_dict
  rw [ofValue_value]
  simp only [Option.map_some']
  rcases hp : c.password with _ | ⟨ch, s⟩
  · rw [camera_init_password]
    decide
  · rw [camera_init_password, if_neg (encrypt_password_ne_nil ch s),
      if_pos (is_encrypted_encrypt ch s), encrypt_decrypt_roundtrip]

/-- C2: round-tripping any camera record through its storage form
(`to_dict` then `from_dict`, which applies the `is_encrypted` heuristic)
preserves the password. -/
theorem storage_roundtrip_password (genId : Str) (c : CameraInstance) :
    (from_dict genId (to_dict c)).map CameraInstance.password = some c.password :=
  from_dict_to_dict_password genId c

/-! ## Claim C9 -/

/-- C9: the credentialed address embeds username and password exactly when
both are non-empty; otherwise `get_url` coincides with the sanitized
`get_safe_url` (protocol, host, port and path, no credentials). -/
theorem get_url_credentials (c : CameraInstance) :
    ((c.username = [] ∨ c.password = []) → get_url c = get_safe_url c) ∧
    (c.username ≠ [] → c.password ≠ [] →
      get_url c = c.protocol ++ "://".toList ++ c.username ++ ":".toList ++ c.password
        ++ "@".toList ++ c.ip_address ++ ":".toList ++ intStr c.port ++ "/".toList
        ++ c.stream_path) := by
  constructor
  · intro h
    unfold get_url get_safe_url
    rw [if_neg]
    intro hcon
    rcases h with h | h
    · exact hcon.1 h
    · exact hcon.2 h
  · intro h1 h2
    unfold get_url
    rw [if_pos ⟨h1, h2⟩]

/-- Witness for C9 at concrete records: a record with empty password gets
the sanitized URL, and a record with both credentials gets the credentialed
URL. -/
theorem get_url_credentials_witness :
    get_url (camera_init "u1".toList none "Cam".toList "rtsp".toList "admin".toList []
        "10.0.0.5".toList 554 "live".toList (1920, 1080) 20 "Default".toList)
      = get_safe_url (camera_init "u1".toList none "Cam".toList "rtsp".toList "admin".toList []
        "10.0.0.5".toList 554 "live".toList (1920, 1080) 20 "Default".toList) ∧
    get_url (camera_init "u1".toList none "Cam".toList "rtsp".toList "admin".toList "pw".toList
        "10.0.0.5".toList 554 "live".toList (1920, 1080) 20 "Default".toList)
      = "rtsp://admin:pw@10.0.0.5:554/live".toList := by
  constructor
  · exact (get_url_credentials _).1 (Or.inr rfl)
  · rw [(get_url_credentials _).2 (by decide) (by decide)]
    decide

/-! ## ip_camera_player.py: CameraManager -/

/-- The in-memory state of a `CameraManager`: the ordered camera list and
the selected camera id. -/
structure CameraManager where
  cameras : List CameraInstance
  selected_camera_id : Option Str
deriving DecidableEq

/-- The loosely-typed `config` dictionary passed to `add_camera`: each key
may be absent (`none`). The `connection_timeout`, `state` and
`error_message` keys can be present but are never read by `add_camera`. -/
structure CameraConfig where
  name : Option Str
  protocol : Option Str
  username : Option Str
  password : Option Str
  ip_address : Option Str
  port : Option Int
  stream_path : Option Str
  resolution : Option (Int × Int)
  location : Option Str
  connection_timeout : Option Int
  state : Option Str
  error_message : Option Str
deriving DecidableEq

/-- `CameraManager.add_camera`. `genId` is the fresh `uuid.uuid4()` the
constructor draws; `saveOk` is the outcome of the `save_to_settings`
attempt (a failed save only prints a warning). Returns the updated manager
and the value returned to the caller (`None` on validation failure). -/
def add_camera (m : CameraManager) (genId : Str) (saveOk : Bool) (config : CameraConfig) :
    CameraManager × Option Str :=
  if config.name.getD [] = [] ∨ config.ip_address.getD [] = [] then (m, none)
  else
    let camera := camera_init genId none (config.name.getD []) (config.protocol.getD
      "rtsp".toList) (config.username.getD []) (config.password.getD [])
      (config.ip_address.getD []) (config.port.getD 554) (config.stream_path.getD [])
      (config.resolution.getD (1920, 1080)) CAMERA_OPENING_TIMEOUT_SECONDS
      (config.location.getD "Default".toList)
    ({ m with cameras := m.cameras ++ [camera] }, some camera.id)

/-- `CameraManager.get_camera`: first camera whose id matches. -/
def get_camera (m : CameraManager) (camera_id : Str) : Option CameraInstance :=
  m.cameras.find? (fun c => c.id == camera_id)

/-- `CameraManager.reorder_cameras`: drop every camera with the given id
from the list, clamp the requested index to the shortened list, and insert
the found camera there; `False` when the id is unknown. -/
def reorder_cameras (m : CameraManager) (camera_id : Str) (new_index : Int) :
    CameraManager × Bool :=
  match get_camera m camera_id with
  | none => (m, false)
  | some camera =>
    let remaining := m.cameras.filter (fun c => !(c.id == camera_id))
    let idx : Nat := (max 0 (min new_index remaining.length)).toNat
    ({ m with cameras := remaining.take idx ++ camera :: remaining.drop idx }, true)

/-! ## Claim C6 -/

/-- C6: with non-empty name and host the add returns the freshly generated
id and appends exactly one record at the end, and the result does not
depend on whether the save succeeded; with an empty (or absent) name or
host it returns no id and changes nothing. -/
theorem add_camera_spec (m : CameraManager) (genId : Str) (saveOk : Bool)
    (config : CameraConfig) :
    (config.name.getD [] ≠ [] → config.ip_address.getD [] ≠ [] →
      ∃ cam : CameraInstance,
        (add_camera m genId saveOk config).1.cameras = m.cameras ++ [cam] ∧
        (add_camera m genId saveOk config).1.cameras.length = m.cameras.length + 1 ∧
        (add_camera m genId saveOk config).2 = some cam.id ∧ cam.id = genId) ∧
    ((config.name.getD [] = [] ∨ config.ip_address.getD [] = []) →
      add_camera m genId saveOk config = (m, none)) ∧
    add_camera m genId true config = add_camera m genId false config := by
  refine ⟨?_, ?_, ?_⟩
  · intro h1 h2
    unfold add_camera
    rw [if_neg (by tauto)]
    exact ⟨_, rfl, by simp, rfl, rfl⟩
  · intro h
    unfold add_camera
    rw [if_pos h]
  · unfold add_camera
    split <;> rfl

/-- Witness for C6 at a concrete valid and a concrete invalid config. -/
theorem add_camera_spec_witness :
    (add_camera ⟨[], none⟩ "id1".toList false
      ⟨some "Cam1".toList, none, none, none, some "10.0.0.5".toList, none, none, none, none,
        none, none, none⟩).2 = some "id1".toList ∧
    add_camera ⟨[], none⟩ "id1".toList false
      ⟨some "Cam1".toList, none, none, none, none, none, none, none, none, none, none, none⟩
      = (⟨[], none⟩, none) := by
  constructor
  · obtain ⟨cam, _, _, h3, h4⟩ :=
      (add_camera_spec ⟨[], none⟩ "id1".toList false
        ⟨some "Cam1".toList, none, none, none, some "10.0.0.5".toList, none, none, none, none,
          none, none, none⟩).1 (by decide) (by decide)
    rw [h3, h4]
  · exact (add_camera_spec ⟨[], none⟩ "id1".toList false
      ⟨some "Cam1".toList, none, none, none, none, none, none, none, none, none, none,
        none⟩).2.1 (Or.inr rfl)

/-! ## Claim C10 -/

/-- C10: every record created by a successful `add_camera` has the fixed
default connection timeout of 20 seconds, state STOPPED and an empty error
message, whatever `connection_timeout`, `state` or `error_message` values
the config carries: `add_camera` never reads those keys. -/
theorem add_camera_defaults (m : CameraManager) (genId : Str) (saveOk : Bool)
    (config : CameraConfig)
    (h1 : config.name.getD [] ≠ []) (h2 : config.ip_address.getD [] ≠ []) :
    ∃ cam : CameraInstance,
      (add_camera m genId saveOk config).1.cameras = m.cameras ++ [cam] ∧
      cam.connection_timeout = 20 ∧ cam.state = CameraState.stopped ∧
      cam.error_message = [] := by
  unfold add_camera
  rw [if_neg (by tauto)]
  exact ⟨_, rfl, rfl, rfl, rfl⟩

/-- Witness for C10: a config that carries a contrary timeout, state and
error message still yields the defaults. -/
theorem add_camera_defaults_witness :
    ∃ cam : CameraInstance,
      (add_camera ⟨[], none⟩ "id1".toList true
        ⟨some "Cam1".toList, none, none, none, some "10.0.0.5".toList, none, none, none, none,
          some 99, some "running".toList, some "boom".toList⟩).1.cameras = [] ++ [cam] ∧
      cam.connection_timeout = 20 ∧ cam.state = CameraState.stopped ∧
      cam.error_message = [] :=
  add_camera_defaults ⟨[], none⟩ "id1".toList true
    ⟨some "Cam1".toList, none, none, none, some "10.0.0.5".toList, none, none, none, none,
      some 99, some "running".toList, some "boom".toList⟩ (by decide) (by decide)

/-! ## Claim C8 -/

theorem filter_ne_eq_eraseP :
    ∀ (l : List CameraInstance) (cid : Str), ((l.map CameraInstance.id).Nodup) →
      l.filter (fun c => !(c.id == cid)) = l.eraseP (fun c => c.id == cid)
  | [], _, _ => rfl
  | c :: l, cid, h => by
    rw [List.map_cons, List.nodup_cons] at h
    by_cases hc : c.id = cid
    · have hbeq : (c.id == cid) = true := beq_iff_eq.mpr hc
      rw [List.filter_cons, List.eraseP_cons, hbeq]
      simp only [Bool.not_true, if_false, cond_true]
      apply List.filter_eq_self.mpr
      intro a ha
      have hne : a.id ≠ cid := by
        intro he
        exact h.1 (hc ▸ he ▸ List.mem_map_of_mem CameraInstance.id ha)
      simp [hne]
    · have hbeq : (c.id == cid) = false := beq_eq_false_iff_ne.mpr hc
      rw [List.filter_cons, List.eraseP_cons, hbeq]
      simp only [Bool.not_false, if_true, cond_false]
      rw [filter_ne_eq_eraseP l cid h.2]

/-- C8: when the given id is present in the registry (whose ids are
pairwise distinct), `reorder_cameras` returns `true` and the new order is
the old order with that record removed from its position and reinserted at
the requested index clamped to `[0, len]`; when the id is absent it returns
`false` and leaves the registry unchanged. -/
theorem reorder_cameras_spec (m : CameraManager) (cid : Str) (new_index : Int)
    (hnodup : (m.cameras.map CameraInstance.id).Nodup) :
    (cid ∈ m.cameras.map CameraInstance.id →
      ∃ cam : CameraInstance, get_camera m cid = some cam ∧ cam.id = cid ∧
        ∃ k : Nat,
          k = (max 0 (min new_index
            ((m.cameras.eraseP (fun c => c.id == cid)).length : Int))).toNat ∧
          reorder_cameras m cid new_index =
            ({ m with cameras := (m.cameras.eraseP (fun c => c.id == cid)).take k
                ++ cam :: (m.cameras.eraseP (fun c => c.id == cid)).drop k }, true)) ∧
    (get_camera m cid = none → reorder_cameras m cid new_index = (m, false)) := by
  constructor
  · intro hmem
    have hex : ∃ c ∈ m.cameras, (fun c : CameraInstance => c.id == cid) c := by
      rcases List.mem_map.mp hmem with ⟨c, hc, hid⟩
      exact ⟨c, hc, by simp [hid]⟩
    have hsome : (m.cameras.find? (fun c => c.id == cid)).isSome :=
      List.find?_isSome.mpr hex
    rcases hfind : get_camera m cid with _ | cam
    · unfold get_camera at hfind
      rw [hfind] at hsome
      simp at hsome
    · have hid : cam.id = cid := by
        have := List.find?_some (p := fun c : CameraInstance => c.id == cid) hfind
        exact beq_iff_eq.mp this
      refine ⟨cam, rfl, hid, _, rfl, ?_⟩
      unfold reorder_cameras
      rw [hfind]
      rw [filter_ne_eq_eraseP m.cameras cid hnodup]
  · intro hnone
    unfold reorder_cameras
    rw [hnone]

/-- A concrete two-camera registry used by the C8 witness. -/
def wcam (cid nm : Str) : CameraInstance :=
  camera_init cid none nm "rtsp".toList [] [] "10.0.0.9".toList 554 []
    (1920, 1080) 20 "Default".toList

/-- Witness for C8: moving the second of two cameras to index 0 swaps the
order, and reordering an unknown id changes nothing. -/
theorem reorder_cameras_spec_witness :
    reorder_cameras ⟨[wcam "a".toList "A".toList, wcam "b".toList "B".toList], none⟩
      "b".toList 0
      = (⟨[wcam "b".toList "B".toList, wcam "a".toList "A".toList], none⟩, true) ∧
    reorder_cameras ⟨[wcam "a".toList "A".toList, wcam "b".toList "B".toList], none⟩
      "zz".toList 0
      = (⟨[wcam "a".toList "A".toList, wcam "b".toList "B".toList], none⟩, false) := by
  constructor
  · obtain ⟨cam, hf, hid, k, hk, heq⟩ :=
      (reorder_cameras_spec ⟨[wcam "a".toList "A".toList, wcam "b".toList "B".toList], none⟩
        "b".toList 0 (by decide)).1 (by decide)
    have hcam : cam = wcam "b".toList "B".toList := by
      have h2 : get_camera
          ⟨[wcam "a".toList "A".toList, wcam "b".toList "B".toList], none⟩ "b".toList
          = some (wcam "b".toList "B".toList) := by decide
      exact Option.some.inj (hf.symm.trans h2)
    rw [heq, hcam, hk]
    decide
  · exact (reorder_cameras_spec ⟨[wcam "a".toList "A".toList, wcam "b".toList "B".toList], none⟩
      "zz".toList 0 (by decide)).2 (by decide)

/-! ## ip_camera_player.py: settings persistence and migration -/

/-- The QSettings keys touched by migration and loading. A `none` value
models an absent key (`settings.contains(key)` false). The camera
collection is held in its parsed form (the `json.dumps`/`json.loads` pair
is treated as the identity on well-formed lists of record dictionaries). -/
structure SettingsStore where
  protocol : Option Str
  user : Option Str
  password : Option Str
  ip : Option Str
  port : Option Int
  stream_path : Option Str
  video_resolution : Option Str
  cameras : Option (List CameraDict)
  selected_camera_id : Option Str
deriving DecidableEq

/-- `migrate_settings`: when the legacy key `ip` exists and the new key
`cameras` does not, build a single record dictionary from the legacy values
(encoding the plaintext password), store it as the whole collection, select
it, and remove the seven legacy keys; otherwise do nothing. `genId` is the
generated `uuid.uuid4()`; `evalResolution` models the outcome of the
`eval(video_resolution_str)` call (`none` for a raising `eval`, in which
case the default resolution is used). -/
def migrate_settings (s : SettingsStore) (genId : Str)
    (evalResolution : Str → Option (Int × Int)) : SettingsStore :=
  if s.ip.isSome ∧ s.cameras.isNone then
    let video_resolution_str := s.video_resolution.getD []
    let resolution :=
      if video_resolution_str ≠ [] then (evalResolution video_resolution_str).getD (1920, 1080)
      else (1920, 1080)
    let migrated_camera : CameraDict :=
      { id := genId
        name := "Camera 1".toList
        protocol := s.protocol.getD "rtsp".toList
        username := s.user.getD []
        password := encrypt_password (s.password.getD [])
        ip_address := s.ip.getD []
        port := s.port.getD 554
        stream_path := s.stream_path.getD []
        resolution := resolution
        connection_timeout := none
        location := "Default".toList
        state_value := "stopped".toList
        error_message := [] }
    { protocol := none
      user := none
      password := none
      ip := none
      port := none
      stream_path := none
      video_resolution := none
      cameras := some [migrated_camera]
      selected_camera_id := some genId }
  else s

/-! ## Claim C5 -/

/-- C5: when the legacy flat keys are present (detected through `ip`) and
the new collection key is absent, migration produces a collection with
exactly one record whose decoded password is the legacy plaintext password,
selects that record, removes all seven legacy keys, and a second migration
changes nothing. -/
theorem migrate_settings_spec (s : SettingsStore) (genId : Str)
    (evalResolution : Str → Option (Int × Int))
    (hip : s.ip.isSome) (hcam : s.cameras = none) :
    ∃ d : CameraDict,
      (migrate_settings s genId evalResolution).cameras = some [d] ∧
      decrypt_password d.password = s.password.getD [] ∧
      d.id = genId ∧
      (migrate_settings s genId evalResolution).selected_camera_id = some genId ∧
      (migrate_settings s genId evalResolution).protocol = none ∧
      (migrate_settings s genId evalResolution).user = none ∧
      (migrate_settings s genId evalResolution).password = none ∧
      (migrate_settings s genId evalResolution).ip = none ∧
      (migrate_settings s genId evalResolution).port = none ∧
      (migrate_settings s genId evalResolution).stream_path = none ∧
      (migrate_settings s genId evalResolution).video_resolution = none ∧
      (∀ (genId2 : Str) (evalResolution2 : Str → Option (Int × Int)),
        migrate_settings (migrate_settings s genId evalResolution) genId2 evalResolution2
          = migrate_settings s genId evalResolution) := by
  have hcond : s.ip.isSome ∧ s.cameras.isNone = true := by
    constructor
    · exact hip
    · rw [hcam]; rfl
  unfold migrate_settings
  rw [if_pos hcond]
  refine ⟨_, rfl, encrypt_decrypt_roundtrip _, rfl, rfl, rfl, rfl, rfl, rfl, rfl, rfl, rfl, ?_⟩
  intro genId2 evalResolution2
  rw [if_neg]
  intro hcon
  simp at hcon

/-- Witness for C5: the concrete legacy store with password "Old123" (and
no other legacy keys set) migrates to one record decoding to "Old123". -/
theorem migrate_settings_spec_witness :
    ∃ d : CameraDict,
      (migrate_settings
        ⟨none, none, some "Old123".toList, some "192.168.0.7".toList, none, none, none, none,
          none⟩ "mid".toList (fun _ => none)).cameras = some [d] ∧
      decrypt_password d.password = "Old123".toList := by
  obtain ⟨d, h1, h2, _⟩ :=
    migrate_settings_spec
      ⟨none, none, some "Old123".toList, some "192.168.0.7".toList, none, none, none, none,
        none⟩ "mid".toList (fun _ => none) (by decide) rfl
  exact ⟨d, h1, h2⟩

/-! ## Claim C7 -/

/-- The raw persisted camera collection, at the granularity
`load_from_settings` distinguishes: the key is absent or holds the empty
string (both replaced by the literal `'[]'`), the string fails
`json.loads`, it parses to a non-list value, or it parses to a list whose
entries are either well-formed record dictionaries or malformed values on
which `from_dict` raises (`none`). -/
inductive CamerasBlob
  | missing
  | unparseable
  | notList
  | entries (l : List (Option CameraDict))
deriving DecidableEq

/-- `CameraManager.load_from_settings`. `status` is the QSettings status
code (`0` is `NoError`), `blob` the stored collection, `selRaw` the stored
`selected_camera_id`, `genId` the fresh id drawn for any record dictionary
whose own id is missing. Returns the manager state after the call and the
boolean result; every failure path is caught inside, so the function is
total. -/
def load_from_settings (m : CameraManager) (genId : Str) (status : Int)
    (blob : CamerasBlob) (selRaw : Option Str) : CameraManager × Bool :=
  if status ≠ 0 then ({ cameras := [], selected_camera_id := none }, false)
  else
    match blob with
    | .missing => ({ cameras := [], selected_camera_id := selRaw }, true)
    | .unparseable => ({ cameras := [], selected_camera_id := none }, false)
    | .notList => ({ cameras := [], selected_camera_id := none }, false)
    | .entries l =>
      ({ cameras := l.filterMap (fun e => e.bind (from_dict genId)),
         selected_camera_id := selRaw }, true)

/-- Counterexample to C7 as stated: when the collection data is missing
(the claim includes this case), `load_from_settings` returns `true`, not
`false`, and restores whatever selected id is stored rather than clearing
it. -/
theorem load_missing_counterexample :
    (load_from_settings ⟨[], none⟩ "g".toList 0 CamerasBlob.missing
      (some "cam1".toList)).2 = true ∧
    (load_from_settings ⟨[], none⟩ "g".toList 0 CamerasBlob.missing
      (some "cam1".toList)).1.selected_camera_id = some "cam1".toList := by
  exact ⟨rfl, rfl⟩

/-- C7 (amended): unparseable or non-list collection data, or a nonzero
settings status, makes `load_from_settings` return `false` with zero
records and no selection; missing or empty collection data instead yields
`true`, still with zero records (the stored selected id is restored
best-effort); no path raises (the function is total). -/
theorem load_from_settings_spec (m : CameraManager) (genId : Str) (selRaw : Option Str)
    (status : Int) :
    (load_from_settings m genId 0 CamerasBlob.unparseable selRaw
        = (⟨[], none⟩, false)) ∧
    (load_from_settings m genId 0 CamerasBlob.notList selRaw
        = (⟨[], none⟩, false)) ∧
    (load_from_settings m genId 0 CamerasBlob.missing selRaw
        = (⟨[], selRaw⟩, true)) ∧
    (status ≠ 0 → load_from_settings m genId status CamerasBlob.missing selRaw
        = (⟨[], none⟩, false)) := by
  refine ⟨rfl, rfl, rfl, ?_⟩
  intro h
  unfold load_from_settings
  rw [if_pos h]

/-- Witness for C7 (amended) at a nonzero status code. -/
theorem load_from_settings_spec_witness :
    load_from_settings ⟨[], none⟩ "g".toList 1 CamerasBlob.missing none
      = (⟨[], none⟩, false) :=
  (load_from_settings_spec ⟨[], none⟩ "g".toList none 1).2.2.2 (by decide)

/-! ## Claim C3 -/

/-- The operations and worker events that drive a `CameraInstance`:
`start_stream`, `stop_stream`, `pause_stream(paused)`, and the queued
`first_frame_received` / `error_signal` callbacks (each carrying the
emitting camera id). -/
inductive CameraEvent
  | start
  | stop
  | pause (paused : Bool)
  | first_frame (camera_id : Str)
  | error (camera_id : Str) (message : Str)

/-- One record-level transition, exactly as the corresponding
`CameraInstance` method updates `state`, `error_message` and
`stream_thread`:

* `start_stream` stops and discards any existing thread, sets STARTING,
  clears the error and installs a fresh running thread;
* `stop_stream` tears the thread down and sets STOPPED;
* `pause_stream` only acts when a thread exists and is running;
* `_on_first_frame_received` sets RUNNING when the id matches;
* `_on_error` sets ERROR and the message when the id matches, but leaves
  `stream_thread` untouched (the thread itself has stopped running). -/
def camera_step (c : CameraInstance) (e : CameraEvent) : CameraInstance :=
  match e with
  | .start =>
    { c with state := CameraState.starting, error_message := [],
             stream_thread := some { running := true } }
  | .stop =>
    { c with state := CameraState.stopped, error_message := [], stream_thread := none }
  | .pause b =>
    match c.stream_thread with
    | some t =>
      if t.running then
        { c with state := if b then CameraState.paused else CameraState.running }
      else c
    | none => c
  | .first_frame cid =>
    if cid = c.id then { c with state := CameraState.running, error_message := [] } else c
  | .error cid msg =>
    if cid = c.id then
      { c with state := CameraState.error, error_message := msg,
               stream_thread := c.stream_thread.map (fun _ => { running := false }) }
    else c

/-- The states a camera record can reach from a given initial record by any
sequence of operations and worker events. -/
inductive ReachableCamera (init : CameraInstance) : CameraInstance → Prop
  | refl : ReachableCamera init init
  | step (c : CameraInstance) (e : CameraEvent) :
      ReachableCamera init c → ReachableCamera init (camera_step c e)

/-- A concrete fresh camera used by the C3 counterexample and witness. -/
def c3cam : CameraInstance :=
  camera_init "cid".toList none "Cam".toList "rtsp".toList [] [] "10.0.0.5".toList 554 []
    (1920, 1080) 20 "Default".toList

/-- Counterexample to C3 as stated: starting a fresh camera and then
receiving an error event while STARTING yields state ERROR with the error
message set, but `stream_thread` is NOT null — `_on_error` never clears
the worker reference, so the worker is non-null in a state outside
{STARTING, RUNNING, PAUSED}. -/
theorem camera_error_keeps_worker :
    (camera_step (camera_step c3cam CameraEvent.start)
      (CameraEvent.error "cid".toList "Connection timeout".toList)).state
        = CameraState.error ∧
    (camera_step (camera_step c3cam CameraEvent.start)
      (CameraEvent.error "cid".toList "Connection timeout".toList)).error_message
        = "Connection timeout".toList ∧
    (camera_step (camera_step c3cam CameraEvent.start)
      (CameraEvent.error "cid".toList "Connection timeout".toList)).stream_thread
        ≠ none := by
  exact ⟨rfl, rfl, by decide⟩

/-- C3 (amended): in every state reachable from a fresh record the worker
reference is non-null only while the state is STARTING, RUNNING, PAUSED or
ERROR (equivalently, a STOPPED record has no worker); and an error event
received by a record (for instance while STARTING) yields state ERROR with
`last_error` set, while the worker reference survives unchanged in
presence — it is cleared only by `stop_stream` or by the next
`start_stream`. -/
theorem camera_worker_invariant (init c : CameraInstance)
    (hinit_state : init.state = CameraState.stopped)
    (hinit_thread : init.stream_thread = none)
    (hreach : ReachableCamera init c) :
    (c.stream_thread ≠ none →
      c.state = CameraState.starting ∨ c.state = CameraState.running ∨
      c.state = CameraState.paused ∨ c.state = CameraState.error) ∧
    (∀ msg : Str,
      (camera_step c (CameraEvent.error c.id msg)).state = CameraState.error ∧
      (camera_step c (CameraEvent.error c.id msg)).error_message = msg ∧
      ((camera_step c (CameraEvent.error c.id msg)).stream_thread = none ↔
        c.stream_thread = none)) := by
  constructor
  · induction hreach with
    | refl => intro h; exact absurd hinit_thread h
    | step c e hr ih =>
      cases e with
      | start => simp [camera_step]
      | stop => simp [camera_step]
      | pause b =>
        rcases hth : c.stream_thread with _ | t
        · simp [camera_step, hth]
        · simp only [camera_step, hth]
          by_cases hrun : t.running
          · rw [if_pos hrun]
            cases b <;> simp
          · rw [if_neg hrun]
            exact ih
      | first_frame cid =>
        simp only [camera_step]
        by_cases hc : cid = c.id
        · rw [if_pos hc]
          simp
        · rw [if_neg hc]
          exact ih
      | error cid msg =>
        simp only [camera_step]
        by_cases hc : cid = c.id
        · rw [if_pos hc]
          simp
        · rw [if_neg hc]
          exact ih
  · intro msg
    simp [camera_step]

/-- Witness for C3 (amended): after start and an error event on the
concrete fresh camera, the reachable-state invariant holds and the error
transition keeps the (non-null) worker. -/
theorem camera_worker_invariant_witness :
    (camera_step (camera_step c3cam CameraEvent.start)
      (CameraEvent.error "cid".toList "boom".toList)).state = CameraState.starting ∨
    (camera_step (camera_step c3cam CameraEvent.start)
      (CameraEvent.error "cid".toList "boom".toList)).state = CameraState.running ∨
    (camera_step (camera_step c3cam CameraEvent.start)
      (CameraEvent.error "cid".toList "boom".toList)).state = CameraState.paused ∨
    (camera_step (camera_step c3cam CameraEvent.start)
      (CameraEvent.error "cid".toList "boom".toList)).state = CameraState.error :=
  (camera_worker_invariant c3cam _ rfl rfl
    (ReachableCamera.step _ (CameraEvent.error "cid".toList "boom".toList)
      (ReachableCamera.step _ CameraEvent.start (ReachableCamera.refl)))).1 (by decide)

/-! ## Claim C4 -/

/-- The four signal kinds a `StreamThread` emits, with the camera id and,
for `status` and `error`, the message. -/
inductive StreamEvent
  | status (camera_id message : Str)
  | frame (camera_id : Str)
  | first_frame (camera_id : Str)
  | error (camera_id message : Str)
deriving DecidableEq

/-- The outcome of the bounded camera initialization in `StreamThread.run`:
the init thread outlives the timeout, it finishes but the capture is not
opened, or the capture opens. -/
inductive InitResult
  | timeout
  | openFailed
  | opened
deriving DecidableEq

/-- One iteration of the decode loop, as decided by the environment: the
pause flag is set (no read), the read fails, or the read succeeds. The
loop ends when the `running` flag is cleared (the list of steps ends). -/
inductive LoopStep
  | pausedStep
  | readFail
  | readOk
deriving DecidableEq

/-- The events emitted by the decode loop of `StreamThread.run`, given the
`first_frame_was_received` flag: a successful read emits `frame`, and —
only the first time — a status and `first_frame` after it; a failed read
emits a terminal `error`; a paused iteration emits nothing. -/
def stream_loop (cid : Str) : Bool → List LoopStep → List StreamEvent
  | _, [] => []
  | first_received, .pausedStep :: rest => stream_loop cid first_received rest
  | _, .readFail :: _ =>
    [.error cid "Error reading frame. Stopping the video stream.".toList]
  | first_received, .readOk :: rest =>
    if first_received then .frame cid :: stream_loop cid true rest
    else .frame cid :: .status cid "Streaming started".toList :: .first_frame cid
      :: stream_loop cid true rest

/-- The events emitted by `StreamThread.run`: on timeout or open failure an
`error` followed by the status that `stop_streaming` emits, otherwise the
decode loop's events. -/
def stream_run (cid : Str) (timeout : Int) : InitResult → List LoopStep → List StreamEvent
  | .timeout, _ =>
    [.error cid ("Connection timeout: Failed to connect to camera within ".toList
        ++ intStr timeout
        ++ " seconds. Please check camera IP address, network connection, and credentials.".toList),
     .status cid "Stopping streaming".toList]
  | .openFailed, _ =>
    [.error cid "Failed to open camera stream".toList,
     .status cid "Stopping streaming".toList]
  | .opened, steps => stream_loop cid false steps

/-- The whole-lifetime event sequence of one `StreamThread` activation: the
status emitted by `start_streaming`, then everything `run` emits. -/
def stream_lifetime (cid : Str) (timeout : Int) (init : InitResult)
    (steps : List LoopStep) : List StreamEvent :=
  .status cid "Starting streaming".toList :: stream_run cid timeout init steps

def isStatus : StreamEvent → Bool
  | .status _ _ => true
  | _ => false

def isFrame : StreamEvent → Bool
  | .frame _ => true
  | _ => false

def isFirstFrame : StreamEvent → Bool
  | .first_frame _ => true
  | _ => false

/-- The event ordering asserted by the claim, as a decidable check: zero or
more `status`, then either a terminal `error`, or `first_frame` followed
only by `frame` events. -/
def claimed_order (t : List StreamEvent) : Bool :=
  match t.dropWhile isStatus with
  | [] => true
  | .error _ _ :: tail => tail.isEmpty
  | .first_frame _ :: tail => tail.all isFrame
  | _ => false

/-- After the first `error` of a trace, only `status` events occur. -/
def after_error_only_status : List StreamEvent → Bool
  | [] => true
  | .error _ _ :: rest => rest.all isStatus
  | _ :: rest => after_error_only_status rest

/-- Counterexample to C4 as stated: a worker that connects and reads one
frame emits, in order, a status, the frame, another status and only then
`first_frame` — a `frame` event precedes `first_frame`, so the claimed
order (statuses first, then `first_frame` before any `frame`) is violated. -/
theorem stream_order_counterexample :
    stream_lifetime "c1".toList 20 InitResult.opened [LoopStep.readOk]
      = [StreamEvent.status "c1".toList "Starting streaming".toList,
         StreamEvent.frame "c1".toList,
         StreamEvent.status "c1".toList "Streaming started".toList,
         StreamEvent.first_frame "c1".toList] ∧
    claimed_order (stream_lifetime "c1".toList 20 InitResult.opened [LoopStep.readOk])
      = false := by
  exact ⟨rfl, rfl⟩

theorem stream_loop_true_no_first (cid : Str) :
    ∀ steps, (stream_loop cid true steps).filter isFirstFrame = []
  | [] => rfl
  | .pausedStep :: rest => by
    rw [stream_loop]
    exact stream_loop_true_no_first cid rest
  | .readFail :: rest => rfl
  | .readOk :: rest => by
    rw [stream_loop, if_pos rfl, List.filter_cons]
    simp only [isFirstFrame, cond_false]
    exact stream_loop_true_no_first cid rest

theorem stream_loop_false_first_le_one (cid : Str) :
    ∀ steps, ((stream_loop cid false steps).filter isFirstFrame).length ≤ 1
  | [] => by simp [stream_loop]
  | .pausedStep :: rest => by
    rw [stream_loop]
    exact stream_loop_false_first_le_one cid rest
  | .readFail :: rest => by simp [stream_loop, isFirstFrame]
  | .readOk :: rest => by
    rw [stream_loop, if_neg (by simp)]
    simp only [List.filter_cons, isFirstFrame, cond_false, cond_true]
    rw [stream_loop_true_no_first cid rest]
    simp

theorem stream_loop_after_error (cid : Str) :
    ∀ (steps : List LoopStep) (b : Bool),
      after_error_only_status (stream_loop cid b steps) = true
  | [], _ => rfl
  | .pausedStep :: rest, b => by
    rw [stream_loop]
    exact stream_loop_after_error cid rest b
  | .readFail :: rest, _ => rfl
  | .readOk :: rest, b => by
    cases b
    · rw [stream_loop, if_neg (by simp)]
      show after_error_only_status (stream_loop cid true rest) = true
      exact stream_loop_after_error cid rest true
    · rw [stream_loop, if_pos rfl]
      show after_error_only_status (stream_loop cid true rest) = true
      exact stream_loop_after_error cid rest true

theorem stream_loop_frame_iff_first (cid : Str) :
    ∀ steps, (stream_loop cid false steps).any isFrame
      = (stream_loop cid false steps).any isFirstFrame
  | [] => rfl
  | .pausedStep :: rest => by
    rw [stream_loop]
    exact stream_loop_frame_iff_first cid rest
  | .readFail :: rest => rfl
  | .readOk :: rest => by
    rw [stream_loop, if_neg (by simp)]
    simp [isFrame, isFirstFrame]

theorem stream_loop_false_decomp (cid : Str) :
    ∀ steps, (stream_loop cid false steps).any isFirstFrame = true →
      ∃ rest, stream_loop cid false steps
        = StreamEvent.frame cid :: StreamEvent.status cid "Streaming started".toList
          :: StreamEvent.first_frame cid :: stream_loop cid true rest
  | [], h => by simp [stream_loop] at h
  | .pausedStep :: rest, h => by
    rw [stream_loop] at h ⊢
    exact stream_loop_false_decomp cid rest h
  | .readFail :: rest, h => by
    rw [stream_loop] at h
    simp [isFirstFrame] at h
  | .readOk :: rest, h => by
    rw [stream_loop, if_neg (by simp)]
    exact ⟨rest, rfl⟩

/-- C4 (amended): over a worker's whole lifetime, `first_frame` is emitted
at most once and exactly when some `frame` is emitted, an `error` is
followed only by status events (no `frame` or `first_frame` after it —
though the stop status does follow it), and when `first_frame` occurs the
trace begins with the starting status, then the FIRST `frame`, then a
status, then `first_frame`: the first frame event precedes `first_frame`
rather than following it. -/
theorem stream_lifetime_order (cid : Str) (timeout : Int) (init : InitResult)
    (steps : List LoopStep) :
    (((stream_lifetime cid timeout init steps).filter isFirstFrame).length ≤ 1) ∧
    ((stream_lifetime cid timeout init steps).any isFrame
      = (stream_lifetime cid timeout init steps).any isFirstFrame) ∧
    (after_error_only_status (stream_lifetime cid timeout init steps) = true) ∧
    ((stream_lifetime cid timeout init steps).any isFirstFrame = true →
      ∃ r, stream_lifetime cid timeout init steps
        = StreamEvent.status cid "Starting streaming".toList
          :: StreamEvent.frame cid :: StreamEvent.status cid "Streaming started".toList
          :: StreamEvent.first_frame cid :: r) := by
  cases init with
  | timeout =>
    refine ⟨by simp [stream_lifetime, stream_run, isFirstFrame], ?_, rfl, ?_⟩
    · simp [stream_lifetime, stream_run, isFrame, isFirstFrame]
    · intro h
      simp [stream_lifetime, stream_run, isFirstFrame] at h
  | openFailed =>
    refine ⟨by simp [stream_lifetime, stream_run, isFirstFrame], ?_, rfl, ?_⟩
    · simp [stream_lifetime, stream_run, isFrame, isFirstFrame]
    · intro h
      simp [stream_lifetime, stream_run, isFirstFrame] at h
  | opened =>
    refine ⟨?_, ?_, ?_, ?_⟩
    · show ((StreamEvent.status cid "Starting streaming".toList
          :: stream_loop cid false steps).filter isFirstFrame).length ≤ 1
      rw [List.filter_cons]
      simp only [isFirstFrame, cond_false]
      exact stream_loop_false_first_le_one cid steps
    · show (StreamEvent.status cid "Starting streaming".toList
          :: stream_loop cid false steps).any isFrame
        = (StreamEvent.status cid "Starting streaming".toList
          :: stream_loop cid false steps).any isFirstFrame
      simp only [List.any_cons, isFrame, isFirstFrame, Bool.false_or]
      exact stream_loop_frame_iff_first cid steps
    · show after_error_only_status (StreamEvent.status cid "Starting streaming".toList
          :: stream_loop cid false steps) = true
      show after_error_only_status (stream_loop cid false steps) = true
      exact stream_loop_after_error cid steps false
    · intro h
      have h2 : (stream_loop cid false steps).any isFirstFrame = true := by
        simpa [stream_lifetime, stream_run, isFirstFrame] using h
      obtain ⟨rest, hrest⟩ := stream_loop_false_decomp cid steps h2
      refine ⟨stream_loop cid true rest, ?_⟩
      show StreamEvent.status cid "Starting streaming".toList
          :: stream_loop cid false steps = _
      rw [hrest]

/-- Witness for C4 (amended): the connect-and-read-one-frame trace contains
`first_frame`, and the theorem pins its position after the first frame. -/
theorem stream_lifetime_order_witness :
    ∃ r, stream_lifetime "c1".toList 20 InitResult.opened [LoopStep.readOk]
      = StreamEvent.status "c1".toList "Starting streaming".toList
        :: StreamEvent.frame "c1".toList
        :: StreamEvent.status "c1".toList "Streaming started".toList
        :: StreamEvent.first_frame "c1".toList :: r :=
  (stream_lifetime_order "c1".toList 20 InitResult.opened [LoopStep.readOk]).2.2.2 (by decide)

end IPCam
